import Mathlib

/-!
Shallow embedding of the retrieval core of the Batch-processing repository
(crypto fact extraction, vector store, retriever).  Python floats are
modelled as rationals, Python None as Option.none, and Python exceptions
as Except.error.  Dictionaries are association lists.
-/

/-- Python attribute use that raises TypeError when the value is None
(e.g. formatting None with a numeric format spec, or comparing None
with a number). -/
def pyGet {α : Type} (o : Option α) : Except String α :=
  match o with
  | some a => Except.ok a
  | none => Except.error "TypeError: NoneType"

/-- Round a rational to the nearest integer, ties to even: the rounding
used by Python fixed-point formatting. -/
def roundHalfEven (q : ℚ) : ℤ :=
  let f := ⌊q⌋
  let r := q - (f : ℚ)
  if r < 1/2 then f
  else if 1/2 < r then f + 1
  else if f % 2 = 0 then f else f + 1

/-- Two-digit zero padding for the cents part. -/
def pad2 (n : ℕ) : String :=
  if n < 10 then "0" ++ toString n else toString n

/-- Fixed two-decimal rendering of a nonnegative rational. -/
def fmt2of (q : ℚ) : String :=
  let m := (roundHalfEven (q * 100)).toNat
  toString (m / 100) ++ "." ++ pad2 (m % 100)

/-- Python format spec `.2f` on a rational. -/
def fmt2 (q : ℚ) : String :=
  if q < 0 then "-" ++ fmt2of (-q) else fmt2of q

/-- Insert a comma after every third character of a reversed digit list. -/
def group3 : List Char → List Char
  | a :: b :: c :: d :: rest => a :: b :: c :: ',' :: group3 (d :: rest)
  | l => l

/-- Decimal rendering of a natural number with thousands separators. -/
def natComma (n : ℕ) : String :=
  String.mk ((group3 (toString n).toList.reverse).reverse)

/-- Fixed two-decimal comma-grouped rendering of a nonnegative rational. -/
def fmtComma2of (q : ℚ) : String :=
  let m := (roundHalfEven (q * 100)).toNat
  natComma (m / 100) ++ "." ++ pad2 (m % 100)

/-- Python format spec `,.2f` on a rational. -/
def fmtComma2 (q : ℚ) : String :=
  if q < 0 then "-" ++ fmtComma2of (-q) else fmtComma2of q

/-- A value stored in a metadata dictionary (string, float, int or None). -/
inductive MetaVal
  | str (s : String)
  | rat (q : ℚ)
  | int (n : ℤ)
  | null
deriving DecidableEq

/-- A Python dict with string keys, as an association list (first match
wins on lookup, mirroring a dict where each key occurs once). -/
abbrev Metadata := List (String × MetaVal)

/-- data_ingestion/fetch_prices.py: dataclass CryptoData.  The numeric
fields are Options so that malformed records (None fields) are
representable, as the safety claims require. -/
structure CryptoData where
  id : String
  symbol : String
  name : String
  current_price : Option ℚ
  market_cap : Option ℤ
  market_cap_rank : Option ℤ
  price_change_24h : Option ℚ
  price_change_percentage_24h : Option ℚ
  volume_24h : Option ℚ
  timestamp : String
  source : String := "coingecko"
deriving DecidableEq

/-- knowledge/fact_extractor.py: dataclass CryptoFact. -/
structure CryptoFact where
  fact_id : String
  content : String
  crypto_id : String
  crypto_symbol : String
  fact_type : String
  timestamp : String
  metadata : Metadata
deriving DecidableEq

/-- The fact built by _extract_price_facts for price p. -/
def priceFact (c : CryptoData) (p : ℚ) : CryptoFact :=
  { fact_id := c.id ++ "_price_" ++ c.timestamp
    content := c.name ++ " (" ++ c.symbol ++ ") is currently trading at $" ++
      fmtComma2 p ++ " USD."
    crypto_id := c.id
    crypto_symbol := c.symbol
    fact_type := "price"
    timestamp := c.timestamp
    metadata := [("price", MetaVal.rat p), ("currency", MetaVal.str "USD"),
                 ("source", MetaVal.str c.source)] }

/-- knowledge/fact_extractor.py: _extract_price_facts.  The price is
formatted unconditionally, so a None price raises. -/
def extract_price_facts (c : CryptoData) : Except String (List CryptoFact) := do
  let p ← pyGet c.current_price
  Except.ok [priceFact c p]

/-- The direction word chosen by the sign of the percentage change. -/
def directionOf (pct : ℚ) : String :=
  if pct > 0 then "increased" else "decreased"

/-- The fact built by _extract_change_facts. -/
def changeFact (c : CryptoData) (pct chg : ℚ) : CryptoFact :=
  { fact_id := c.id ++ "_change_" ++ c.timestamp
    content := c.name ++ " has " ++ directionOf pct ++ " by " ++ fmt2 |pct| ++
      "% ($" ++ fmt2 |chg| ++ ") in the last 24 hours."
    crypto_id := c.id
    crypto_symbol := c.symbol
    fact_type := "change"
    timestamp := c.timestamp
    metadata := [("change_percentage", MetaVal.rat pct),
                 ("change_absolute", MetaVal.rat chg),
                 ("direction", MetaVal.str (directionOf pct)),
                 ("timeframe", MetaVal.str "24h")] }

/-- knowledge/fact_extractor.py: _extract_change_facts.  In Python,
None != 0 is True, so a None percentage enters the branch and then
raises at the None > 0 comparison; a None absolute change raises at
abs(None) only when the branch is taken. -/
def extract_change_facts (c : CryptoData) : Except String (List CryptoFact) :=
  let neq0 := match c.price_change_percentage_24h with
    | none => true
    | some p => decide (p ≠ 0)
  if neq0 then do
    let pct ← pyGet c.price_change_percentage_24h
    let chg ← pyGet c.price_change_24h
    Except.ok [changeFact c pct chg]
  else Except.ok []

/-- Python str() of an optional int, as used for the market cap rank
inside an f-string (str(None) is the text None). -/
def rankStr (o : Option ℤ) : String :=
  match o with
  | some r => toString r
  | none => "None"

/-- The metadata value stored for the rank field. -/
def rankVal (o : Option ℤ) : MetaVal :=
  match o with
  | some r => MetaVal.int r
  | none => MetaVal.null

/-- The fact built by _extract_market_facts. -/
def marketFact (c : CryptoData) (m : ℤ) : CryptoFact :=
  { fact_id := c.id ++ "_market_" ++ c.timestamp
    content := c.name ++ " has a market capitalization of $" ++
      fmt2 ((m : ℚ) / 1000000000) ++ " billion USD, ranking #" ++
      rankStr c.market_cap_rank ++ " by market cap."
    crypto_id := c.id
    crypto_symbol := c.symbol
    fact_type := "market_cap"
    timestamp := c.timestamp
    metadata := [("market_cap", MetaVal.int m),
                 ("market_cap_billions", MetaVal.rat ((m : ℚ) / 1000000000)),
                 ("rank", rankVal c.market_cap_rank)] }

/-- knowledge/fact_extractor.py: _extract_market_facts.  The guard
market_cap > 0 raises on a None market cap. -/
def extract_market_facts (c : CryptoData) : Except String (List CryptoFact) := do
  let m ← pyGet c.market_cap
  if m > 0 then Except.ok [marketFact c m] else Except.ok []

/-- The fact built by _extract_volume_facts. -/
def volumeFact (c : CryptoData) (v : ℚ) : CryptoFact :=
  { fact_id := c.id ++ "_volume_" ++ c.timestamp
    content := c.name ++ " has a 24-hour trading volume of $" ++
      fmt2 (v / 1000000) ++ " million USD."
    crypto_id := c.id
    crypto_symbol := c.symbol
    fact_type := "volume"
    timestamp := c.timestamp
    metadata := [("volume_24h", MetaVal.rat v),
                 ("volume_millions", MetaVal.rat (v / 1000000)),
                 ("timeframe", MetaVal.str "24h")] }

/-- knowledge/fact_extractor.py: _extract_volume_facts.  The guard
volume_24h > 0 raises on a None volume. -/
def extract_volume_facts (c : CryptoData) : Except String (List CryptoFact) := do
  let v ← pyGet c.volume_24h
  if v > 0 then Except.ok [volumeFact c v] else Except.ok []

/-- One loop iteration of extract_facts: the four extractors in source
order, results concatenated; an exception aborts the iteration. -/
def extract_one (c : CryptoData) : Except String (List CryptoFact) := do
  let pf ← extract_price_facts c
  let cf ← extract_change_facts c
  let mf ← extract_market_facts c
  let vf ← extract_volume_facts c
  Except.ok (pf ++ cf ++ mf ++ vf)

/-- knowledge/fact_extractor.py: CryptoFactExtractor.extract_facts.
An exception raised for any record propagates out of the whole batch
(there is no per-record recovery in the source). -/
def extract_facts : List CryptoData → Except String (List CryptoFact)
  | [] => Except.ok []
  | c :: rest => do
    let hd ← extract_one c
    let tl ← extract_facts rest
    Except.ok (hd ++ tl)

example : fmt2 (5/2) = "2.50" := by with_unfolding_all rfl
example : fmtComma2 (50000 : ℚ) = "50,000.00" := by with_unfolding_all rfl
example : fmtComma2 (-(1234 : ℚ) - 1/2) = "-1,234.50" := by with_unfolding_all rfl

/-- One formatted search result from knowledge/embed_store.py
search_facts: a dict with keys content, metadata, distance and id.  The
distance key is always present; its value is None (here Option.none)
when the backend reported no distances. -/
structure Candidate where
  content : String
  metadata : Metadata
  distance : Option ℚ
  id : String
deriving DecidableEq

/-- The raw backend response of collection.query, as read by
search_facts: parallel per-query lists of documents, metadatas, ids,
and an optional list of distances (None when the backend omits them). -/
structure QueryResults where
  documents : List (List String)
  metadatas : List (List Metadata)
  distances : Option (List (List ℚ))
  ids : List (List String)

/-- knowledge/embed_store.py: the result-formatting loop of
search_facts.  Python truthiness: the loop runs only when
results[documents] is nonempty and its first entry is nonempty; the
distance annotation is taken from results[distances][0][i] when
results[distances] is truthy (not None and not the empty list) and is
None otherwise.  The backend returns the parallel lists aligned, so
positional lookups use a default that is never reached on aligned
input. -/
def search_facts (res : QueryResults) : List Candidate :=
  match res.documents with
  | [] => []
  | docs0 :: _ =>
    if docs0.isEmpty then []
    else
      (List.range docs0.length).map fun i =>
        { content := docs0.getD i ""
          metadata := (res.metadatas.headD []).getD i []
          distance := match res.distances with
            | none => none
            | some [] => none
            | some (ds0 :: _) => some (ds0.getD i 0)
          id := (res.ids.headD []).getD i "" }

/-- A candidate that passed the relevance filter in retrieve_facts:
the original dict with the similarity key written into it. -/
structure ScoredFact where
  content : String
  metadata : Metadata
  distance : Option ℚ
  id : String
  similarity : ℚ
deriving DecidableEq

/-- rag_pipeline/retriever.py: dataclass RetrievalResult.  The
wall-clock retrieval_time field is a real-time measurement and is
outside the embedding. -/
structure RetrievalResult where
  query : String
  facts : List ScoredFact
  total_found : ℕ
deriving DecidableEq

/-- The relevance-filter loop of retrieve_facts: for each raw result,
similarity = 1 - distance (raising a TypeError when the distance value
is None, since the dict key is present and dict.get then returns None,
not the 1.0 default), keeping results with similarity at or above the
threshold, in order. -/
def filter_by_relevance (threshold : ℚ) :
    List Candidate → Except String (List ScoredFact)
  | [] => Except.ok []
  | c :: rest => do
    let d ← pyGet c.distance
    let similarity := 1 - d
    let tail ← filter_by_relevance threshold rest
    if similarity ≥ threshold then
      Except.ok ({ content := c.content, metadata := c.metadata,
                   distance := c.distance, id := c.id,
                   similarity := similarity } :: tail)
    else
      Except.ok tail

/-- rag_pipeline/retriever.py: CryptoRetriever.retrieve_facts, over the
candidate list handed back by the vector store (the store is passed as
data: the function body only filters by threshold and truncates to
max_facts).  No validation of the threshold is performed. -/
def retrieve_facts (query : String) (max_facts : ℕ) (relevance_threshold : ℚ)
    (raw_results : List Candidate) : Except String RetrievalResult := do
  let filtered ← filter_by_relevance relevance_threshold raw_results
  Except.ok { query := query, facts := filtered.take max_facts,
              total_found := raw_results.length }

/-- One stored entry of the chromadb collection: id, document text,
metadata dict and embedding vector. -/
structure Entry where
  id : String
  document : String
  metadata : Metadata
  embedding : List ℚ
deriving DecidableEq

/-- The collection is the ordered list of stored entries. -/
abbrev Collection := List Entry

/-- chromadb collection.add semantics: an id that already exists in the
collection is NOT replaced (chromadb rejects or skips duplicate ids on
add; only collection.upsert replaces).  New ids are appended in order. -/
def collection_add (col : Collection) : List Entry → Collection
  | [] => col
  | e :: rest =>
    if (col.map Entry.id).contains e.id then collection_add col rest
    else collection_add (col ++ [e]) rest

/-- Python dict insertion: overwrite the value under the key if it is
present, otherwise append the pair. -/
def dictInsert (m : Metadata) (k : String) (v : MetaVal) : Metadata :=
  if m.any (fun p => p.1 == k) then
    m.map (fun p => if p.1 == k then (k, v) else p)
  else m ++ [(k, v)]

/-- Python dict merge of the unpacked fact metadata into the base dict
(later keys win). -/
def dictMerge (a b : Metadata) : Metadata :=
  b.foldl (fun m p => dictInsert m p.1 p.2) a

/-- knowledge/embed_store.py: CryptoVectorStore.add_facts.  Empty input
is a no-op returning 0; otherwise the facts become entries (content as
document, four fixed metadata fields merged with the fact metadata, the
embedding from the embedding model applied to the content) which are
handed to collection.add, and the returned count is len(facts) whether
or not the ids were actually inserted. -/
def add_facts (embed : String → List ℚ) (col : Collection)
    (facts : List CryptoFact) : Collection × ℕ :=
  if facts.isEmpty then (col, 0)
  else
    let entries := facts.map fun f =>
      { id := f.fact_id
        document := f.content
        metadata := dictMerge
          [("crypto_id", MetaVal.str f.crypto_id),
           ("crypto_symbol", MetaVal.str f.crypto_symbol),
           ("fact_type", MetaVal.str f.fact_type),
           ("timestamp", MetaVal.str f.timestamp)] f.metadata
        embedding := embed f.content }
    (collection_add col entries, facts.length)

/-- Python metadata.get with a default value. -/
def metaGet (m : Metadata) (k : String) (dflt : MetaVal) : MetaVal :=
  (m.lookup k).getD dflt

/-- The stats dict returned by get_collection_stats.  The three Option
fields model dict keys that are present only in the nonempty branch of
the source. -/
structure CollectionStats where
  total_facts : ℕ
  unique_cryptos : Option ℕ
  crypto_symbols : Option (List MetaVal)
  fact_types : Option (List MetaVal)
deriving DecidableEq

/-- The crypto_symbol metadata value of an entry, with the unknown
default of the source. -/
def symOf (e : Entry) : MetaVal :=
  metaGet e.metadata "crypto_symbol" (MetaVal.str "unknown")

/-- The fact_type metadata value of an entry, with the unknown default
of the source. -/
def ftypeOf (e : Entry) : MetaVal :=
  metaGet e.metadata "fact_type" (MetaVal.str "unknown")

/-- knowledge/embed_store.py: CryptoVectorStore.get_collection_stats.
The distinct symbols and fact types are collected over a sample of at
most 100 entries (collection.get with limit min(100, count)), not over
the whole collection; the empty collection returns a dict holding only
total_facts = 0. -/
def get_collection_stats (col : Collection) : CollectionStats :=
  let count := col.length
  if count > 0 then
    let sample := col.take (min 100 count)
    let symbols := (sample.map symOf).dedup
    let ftypes := (sample.map ftypeOf).dedup
    { total_facts := count
      unique_cryptos := some symbols.length
      crypto_symbols := some symbols
      fact_types := some ftypes }
  else
    { total_facts := 0, unique_cryptos := none,
      crypto_symbols := none, fact_types := none }

/-- utils/config.py: the configuration fields Config.validate reads. -/
structure Config where
  GROQ_API_KEY : String

/-- utils/config.py: Config.validate returns False exactly when
GROQ_API_KEY is empty (falsy); no other field, and in particular no
retrieval threshold, is checked. -/
def Config.validate (cfg : Config) : Bool :=
  cfg.GROQ_API_KEY != ""

/-- Python ASCII str.lower. -/
def pyLowerChar (c : Char) : Char :=
  if 'A' ≤ c ∧ c ≤ 'Z' then Char.ofNat (c.toNat + 32) else c

/-- Python str.lower on a string (ASCII range, as used by the intent
analyzer). -/
def pyLower (s : String) : String :=
  String.mk (s.data.map pyLowerChar)

/-- Python substring containment test (the in operator on str). -/
def strHasSub (hay sub : List Char) : Bool :=
  match hay with
  | [] => sub.isEmpty
  | _ :: t => sub.isPrefixOf hay || strHasSub t sub

/-- rag_pipeline/retriever.py: the crypto name/alias to symbol table of
analyze_query_intent, in source order. -/
def crypto_mapping : List (String × String) :=
  [("bitcoin", "BTC"), ("btc", "BTC"),
   ("ethereum", "ETH"), ("eth", "ETH"),
   ("cardano", "ADA"), ("ada", "ADA"),
   ("solana", "SOL"), ("sol", "SOL"),
   ("polkadot", "DOT"), ("dot", "DOT"),
   ("chainlink", "LINK"), ("link", "LINK"),
   ("polygon", "MATIC"), ("matic", "MATIC"),
   ("avalanche", "AVAX"), ("avax", "AVAX")]

/-- rag_pipeline/retriever.py: the intent keyword table of
analyze_query_intent, in source order. -/
def intent_keywords : List (String × List String) :=
  [("price", ["price", "cost", "value", "worth", "trading"]),
   ("change", ["change", "increase", "decrease", "up", "down", "gain", "loss"]),
   ("market_cap", ["market cap", "market capitalization", "valuation"]),
   ("volume", ["volume", "trading volume", "liquidity"]),
   ("ranking", ["rank", "ranking", "position", "top"])]

/-- The dict returned by analyze_query_intent. -/
structure QueryIntent where
  cryptos : List String
  intents : List String
  is_comparison : Bool
  is_general : Bool
deriving DecidableEq

/-- rag_pipeline/retriever.py: CryptoRetriever.analyze_query_intent.
Python builds cryptos as list(set(mentioned)) whose order is
unspecified; the model deduplicates the mention list, and set-level
statements are made about it. -/
def analyze_query_intent (query : String) : QueryIntent :=
  let ql := (pyLower query).toList
  let mentioned :=
    (crypto_mapping.filter (fun p => strHasSub ql p.1.toList)).map Prod.snd
  let detected :=
    (intent_keywords.filter
      (fun p => p.2.any (fun kw => strHasSub ql kw.toList))).map Prod.fst
  { cryptos := mentioned.dedup
    intents := detected
    is_comparison :=
      ["compare", "vs", "versus", "between"].any (fun w => strHasSub ql w.toList)
    is_general := mentioned.isEmpty }

example :
    (analyze_query_intent "Compare Bitcoin and Ethereum market caps").intents
      = ["market_cap"] := by with_unfolding_all rfl

theorem extract_price_facts_ok {c : CryptoData} {l : List CryptoFact} :
    extract_price_facts c = Except.ok l ↔
      ∃ p, c.current_price = some p ∧ l = [priceFact c p] := by
  cases h : c.current_price <;>
    simp [extract_price_facts, pyGet, h, Bind.bind, Except.bind, eq_comm]

theorem extract_change_facts_ok {c : CryptoData} {l : List CryptoFact} :
    extract_change_facts c = Except.ok l ↔
      ((c.price_change_percentage_24h = some 0 ∧ l = []) ∨
       (∃ pct chg, c.price_change_percentage_24h = some pct ∧ pct ≠ 0 ∧
          c.price_change_24h = some chg ∧ l = [changeFact c pct chg])) := by
  cases h : c.price_change_percentage_24h with
  | none =>
    simp [extract_change_facts, pyGet, h, Bind.bind, Except.bind]
  | some pct =>
    by_cases hp : pct = 0
    · subst hp
      simp [extract_change_facts, pyGet, h, Bind.bind, Except.bind]
    · cases hg : c.price_change_24h <;>
        simp [extract_change_facts, pyGet, h, hg, hp, Bind.bind, Except.bind,
          eq_comm]

theorem extract_market_facts_ok {c : CryptoData} {l : List CryptoFact} :
    extract_market_facts c = Except.ok l ↔
      ∃ m, c.market_cap = some m ∧
        ((0 < m ∧ l = [marketFact c m]) ∨ (m ≤ 0 ∧ l = [])) := by
  cases h : c.market_cap with
  | none => simp [extract_market_facts, pyGet, h, Bind.bind, Except.bind]
  | some m =>
    by_cases hm : 0 < m <;>
      simp [extract_market_facts, pyGet, h, hm, Bind.bind, Except.bind,
        not_lt.mp, eq_comm, le_of_not_lt]

theorem extract_volume_facts_ok {c : CryptoData} {l : List CryptoFact} :
    extract_volume_facts c = Except.ok l ↔
      ∃ v, c.volume_24h = some v ∧
        ((0 < v ∧ l = [volumeFact c v]) ∨ (v ≤ 0 ∧ l = [])) := by
  cases h : c.volume_24h with
  | none => simp [extract_volume_facts, pyGet, h, Bind.bind, Except.bind]
  | some v =>
    by_cases hv : 0 < v <;>
      simp [extract_volume_facts, pyGet, h, hv, Bind.bind, Except.bind,
        eq_comm, le_of_not_lt]

theorem extract_one_ok {c : CryptoData} {fs : List CryptoFact} :
    extract_one c = Except.ok fs ↔
      ∃ a b m v, extract_price_facts c = Except.ok a ∧
        extract_change_facts c = Except.ok b ∧
        extract_market_facts c = Except.ok m ∧
        extract_volume_facts c = Except.ok v ∧ fs = a ++ b ++ m ++ v := by
  cases h1 : extract_price_facts c <;>
    cases h2 : extract_change_facts c <;>
      cases h3 : extract_market_facts c <;>
        cases h4 : extract_volume_facts c <;>
          simp [extract_one, h1, h2, h3, h4, Bind.bind, Except.bind, eq_comm]

theorem extract_facts_singleton {c : CryptoData} {fs : List CryptoFact} :
    extract_facts [c] = Except.ok fs ↔ extract_one c = Except.ok fs := by
  cases h : extract_one c <;>
    simp [extract_facts, h, Bind.bind, Except.bind]

theorem extract_facts_cons_ok {c : CryptoData} {cs : List CryptoData}
    {h : List CryptoFact} {t : List CryptoFact}
    (h1 : extract_one c = Except.ok h) (h2 : extract_facts cs = Except.ok t) :
    extract_facts (c :: cs) = Except.ok (h ++ t) := by
  simp [extract_facts, h1, h2, Bind.bind, Except.bind]

theorem mem_extract_facts_singleton {c : CryptoData} {fs : List CryptoFact}
    {f : CryptoFact} (hok : extract_facts [c] = Except.ok fs) (hf : f ∈ fs) :
    (∃ p, c.current_price = some p ∧ f = priceFact c p) ∨
    (∃ pct chg, c.price_change_percentage_24h = some pct ∧ pct ≠ 0 ∧
       c.price_change_24h = some chg ∧ f = changeFact c pct chg) ∨
    (∃ m, c.market_cap = some m ∧ 0 < m ∧ f = marketFact c m) ∨
    (∃ v, c.volume_24h = some v ∧ 0 < v ∧ f = volumeFact c v) := by
  obtain ⟨a, b, m, v, ha, hb, hm, hv, rfl⟩ :=
    extract_one_ok.mp (extract_facts_singleton.mp hok)
  obtain ⟨p, hp, rfl⟩ := extract_price_facts_ok.mp ha
  simp only [List.append_assoc, List.mem_append] at hf
  rcases hf with hf | hf | hf | hf
  · exact Or.inl ⟨p, hp, by simpa using hf⟩
  · rcases extract_change_facts_ok.mp hb with ⟨_, rfl⟩ | ⟨pct, chg, h1, h2, h3, rfl⟩
    · simp at hf
    · exact Or.inr (Or.inl ⟨pct, chg, h1, h2, h3, by simpa using hf⟩)
  · rcases extract_market_facts_ok.mp hm with ⟨mm, hmm, ⟨hpos, rfl⟩ | ⟨_, rfl⟩⟩
    · exact Or.inr (Or.inr (Or.inl ⟨mm, hmm, hpos, by simpa using hf⟩))
    · simp at hf
  · rcases extract_volume_facts_ok.mp hv with ⟨vv, hvv, ⟨hpos, rfl⟩ | ⟨_, rfl⟩⟩
    · exact Or.inr (Or.inr (Or.inr ⟨vv, hvv, hpos, by simpa using hf⟩))
    · simp at hf

/-- The snapshot timestamp shared by the concrete test records. -/
def tsT : String := "2024-01-01T00:00:00+00:00"

/-- Concrete record whose only guarded fact is the market-cap fact. -/
def recMkt : CryptoData :=
  { id := "bitcoin", symbol := "BTC", name := "Bitcoin",
    current_price := some 100, market_cap := some 5000000000,
    market_cap_rank := some 1, price_change_24h := some 0,
    price_change_percentage_24h := some 0, volume_24h := some 0,
    timestamp := tsT }

/-- C2 counterexample: the fact whose fact_type is market_cap gets
fact_id segment market, not market_cap, so its fact_id differs from
entity_id_fact_type_timestamp. -/
theorem C2_counterexample :
    ∃ fs f, extract_facts [recMkt] = Except.ok fs ∧ f ∈ fs ∧
      f.fact_type = "market_cap" ∧
      f.fact_id ≠ recMkt.id ++ "_" ++ f.fact_type ++ "_" ++ recMkt.timestamp := by
  refine ⟨[priceFact recMkt 100, marketFact recMkt 5000000000],
    marketFact recMkt 5000000000, ?_, by simp, rfl, ?_⟩
  · with_unfolding_all rfl
  · with_unfolding_all decide

/-- C2 amended: every emitted fact has
fact_id = entity_id_tag_timestamp where the tag equals the fact_type
except for market_cap facts, whose tag is market. -/
theorem C2_fact_id (c : CryptoData) (fs : List CryptoFact) (f : CryptoFact)
    (hok : extract_facts [c] = Except.ok fs) (hf : f ∈ fs) :
    f.fact_id = c.id ++
      ("_" ++ (if f.fact_type = "market_cap" then "market" else f.fact_type)
        ++ "_") ++ c.timestamp := by
  rcases mem_extract_facts_singleton hok hf with
    ⟨p, _, rfl⟩ | ⟨pct, chg, _, _, _, rfl⟩ | ⟨m, _, _, rfl⟩ | ⟨v, _, _, rfl⟩
  · rfl
  · rfl
  · rfl
  · rfl

/-- Witness for C2_fact_id at the concrete record recMkt. -/
theorem C2_fact_id_witness :
    extract_facts [recMkt] =
      Except.ok [priceFact recMkt 100, marketFact recMkt 5000000000] ∧
    (marketFact recMkt 5000000000).fact_id = recMkt.id ++
      ("_" ++ (if (marketFact recMkt 5000000000).fact_type = "market_cap"
        then "market" else (marketFact recMkt 5000000000).fact_type)
        ++ "_") ++ recMkt.timestamp :=
  ⟨by with_unfolding_all rfl,
   C2_fact_id recMkt [priceFact recMkt 100, marketFact recMkt 5000000000]
     (marketFact recMkt 5000000000) (by with_unfolding_all rfl) (by simp)⟩

/-- Concrete record with a negative price and every guarded fact
suppressed. -/
def recNeg : CryptoData :=
  { id := "badcoin", symbol := "BAD", name := "Badcoin",
    current_price := some (-5), market_cap := some 0,
    market_cap_rank := some 0, price_change_24h := some 0,
    price_change_percentage_24h := some 0, volume_24h := some 0,
    timestamp := tsT }

/-- C4 counterexample: a record with a negative price still gets a
price fact (the source emits the price fact unconditionally). -/
theorem C4_counterexample :
    extract_facts [recNeg] = Except.ok [priceFact recNeg (-5)] ∧
    (priceFact recNeg (-5)).fact_type = "price" ∧
    recNeg.current_price = some (-5) ∧ (-5 : ℚ) < 0 := by
  refine ⟨by with_unfolding_all rfl, rfl, rfl, by norm_num⟩

/-- C4 amended: a price fact is emitted for every record whose
extraction succeeds, with no condition on the sign of the price. -/
theorem C4_price_always (c : CryptoData) (fs : List CryptoFact)
    (hok : extract_facts [c] = Except.ok fs) :
    ∃ p, c.current_price = some p ∧ priceFact c p ∈ fs ∧
      (priceFact c p).fact_type = "price" := by
  obtain ⟨a, b, m, v, ha, hb, hm, hv, rfl⟩ :=
    extract_one_ok.mp (extract_facts_singleton.mp hok)
  obtain ⟨p, hp, rfl⟩ := extract_price_facts_ok.mp ha
  exact ⟨p, hp, by simp, rfl⟩

/-- Witness for C4_price_always at the negative-price record. -/
theorem C4_price_always_witness :
    ∃ p, recNeg.current_price = some p ∧
      priceFact recNeg p ∈ [priceFact recNeg (-5)] ∧
      (priceFact recNeg p).fact_type = "price" :=
  C4_price_always recNeg [priceFact recNeg (-5)] (by with_unfolding_all rfl)

/-- Concrete record whose current_price is None. -/
def recNone : CryptoData :=
  { id := "nullcoin", symbol := "NUL", name := "Nullcoin",
    current_price := none, market_cap := some 0,
    market_cap_rank := some 0, price_change_24h := some 0,
    price_change_percentage_24h := some 0, volume_24h := some 0,
    timestamp := tsT }

/-- C6 counterexample: extract_facts raises (here: returns an error) on
a record whose price field is None, aborting the whole batch instead of
skipping the record with a warning. -/
theorem C6_counterexample :
    extract_facts [recNone] = Except.error "TypeError: NoneType" := by
  with_unfolding_all rfl

/-- A record all of whose numeric fields are present (the shape the
fetcher actually produces, since it coerces nulls to 0). -/
def wellFormed (c : CryptoData) : Prop :=
  c.current_price.isSome ∧ c.market_cap.isSome ∧
  c.price_change_percentage_24h.isSome ∧ c.price_change_24h.isSome ∧
  c.volume_24h.isSome

/-- C6 amended: extract_facts is total on batches of well-formed
records (every numeric field present); per-record recovery for
malformed data lives in the fetcher, not here. -/
theorem C6_total_on_wellformed (cs : List CryptoData)
    (hwf : ∀ c ∈ cs, wellFormed c) :
    ∃ fs, extract_facts cs = Except.ok fs := by
  induction cs with
  | nil => exact ⟨[], rfl⟩
  | cons c rest ih =>
    obtain ⟨t, ht⟩ := ih (fun x hx => hwf x (List.mem_cons_of_mem _ hx))
    obtain ⟨hp, hm, hpct, hchg, hv⟩ := hwf c (List.mem_cons_self _ _)
    obtain ⟨p, hp⟩ := Option.isSome_iff_exists.mp hp
    obtain ⟨m, hm⟩ := Option.isSome_iff_exists.mp hm
    obtain ⟨pct, hpct⟩ := Option.isSome_iff_exists.mp hpct
    obtain ⟨chg, hchg⟩ := Option.isSome_iff_exists.mp hchg
    obtain ⟨v, hv⟩ := Option.isSome_iff_exists.mp hv
    have ha : extract_price_facts c = Except.ok [priceFact c p] :=
      extract_price_facts_ok.mpr ⟨p, hp, rfl⟩
    have hb : ∃ b, extract_change_facts c = Except.ok b := by
      by_cases h0 : pct = 0
      · exact ⟨[], extract_change_facts_ok.mpr (Or.inl ⟨by rw [hpct, h0], rfl⟩)⟩
      · exact ⟨[changeFact c pct chg],
          extract_change_facts_ok.mpr (Or.inr ⟨pct, chg, hpct, h0, hchg, rfl⟩)⟩
    have hc : ∃ mf, extract_market_facts c = Except.ok mf := by
      by_cases hm0 : 0 < m
      · exact ⟨[marketFact c m],
          extract_market_facts_ok.mpr ⟨m, hm, Or.inl ⟨hm0, rfl⟩⟩⟩
      · exact ⟨[], extract_market_facts_ok.mpr ⟨m, hm, Or.inr ⟨le_of_not_lt hm0, rfl⟩⟩⟩
    have hd : ∃ vf, extract_volume_facts c = Except.ok vf := by
      by_cases hv0 : 0 < v
      · exact ⟨[volumeFact c v],
          extract_volume_facts_ok.mpr ⟨v, hv, Or.inl ⟨hv0, rfl⟩⟩⟩
      · exact ⟨[], extract_volume_facts_ok.mpr ⟨v, hv, Or.inr ⟨le_of_not_lt hv0, rfl⟩⟩⟩
    obtain ⟨b, hb⟩ := hb
    obtain ⟨mf, hc⟩ := hc
    obtain ⟨vf, hd⟩ := hd
    have hone : extract_one c = Except.ok ([priceFact c p] ++ b ++ mf ++ vf) :=
      extract_one_ok.mpr ⟨_, _, _, _, ha, hb, hc, hd, rfl⟩
    exact ⟨_, extract_facts_cons_ok hone ht⟩

/-- Witness for totality on a concrete well-formed batch. -/
theorem C6_total_on_wellformed_witness :
    ∃ fs, extract_facts [recMkt, recNeg] = Except.ok fs :=
  C6_total_on_wellformed [recMkt, recNeg] (by intro c hc; fin_cases hc <;>
    exact ⟨rfl, rfl, rfl, rfl, rfl⟩)

/-- Read a float value out of a metadata dict. -/
def lookupRat (md : Metadata) (k : String) : Option ℚ :=
  match md.lookup k with
  | some (MetaVal.rat q) => some q
  | _ => none

/-- Read a string value out of a metadata dict. -/
def lookupStr (md : Metadata) (k : String) : Option String :=
  match md.lookup k with
  | some (MetaVal.str s) => some s
  | _ => none

/-- Render the stored rank value the way the f-string renders the rank
field (an int prints as its digits, None prints as the text None). -/
def rankRender : MetaVal → Option String
  | MetaVal.int r => some (toString r)
  | MetaVal.null => some "None"
  | _ => none

/-- The single content-derivation function of the round-trip invariant,
with the entity name added to its inputs: it re-renders content from
the four source templates using only
(entity_name, entity_symbol, fact_type, metadata). -/
def render_content (entity_name entity_symbol fact_type : String)
    (md : Metadata) : Option String :=
  if fact_type = "price" then
    (lookupRat md "price").map fun p =>
      entity_name ++ " (" ++ entity_symbol ++ ") is currently trading at $" ++
        fmtComma2 p ++ " USD."
  else if fact_type = "change" then
    match lookupRat md "change_percentage", lookupRat md "change_absolute",
        lookupStr md "direction" with
    | some pct, some chg, some dir =>
      some (entity_name ++ " has " ++ dir ++ " by " ++ fmt2 |pct| ++ "% ($" ++
        fmt2 |chg| ++ ") in the last 24 hours.")
    | _, _, _ => none
  else if fact_type = "market_cap" then
    match lookupRat md "market_cap_billions", md.lookup "rank" with
    | some b, some rv =>
      (rankRender rv).map fun rs =>
        entity_name ++ " has a market capitalization of $" ++ fmt2 b ++
          " billion USD, ranking #" ++ rs ++ " by market cap."
    | _, _ => none
  else if fact_type = "volume" then
    (lookupRat md "volume_millions").map fun m =>
      entity_name ++ " has a 24-hour trading volume of $" ++ fmt2 m ++
        " million USD."
  else none

/-- Concrete record named Bitcoin with only the price fact emitted. -/
def recA : CryptoData :=
  { id := "bitcoin", symbol := "BTC", name := "Bitcoin",
    current_price := some 100, market_cap := some 0,
    market_cap_rank := some 0, price_change_24h := some 0,
    price_change_percentage_24h := some 0, volume_24h := some 0,
    timestamp := tsT }

/-- The same record with a different entity name but identical symbol
and identical per-fact metadata. -/
def recB : CryptoData :=
  { id := "bitcoin2", symbol := "BTC", name := "Bitcoin2",
    current_price := some 100, market_cap := some 0,
    market_cap_rank := some 0, price_change_24h := some 0,
    price_change_percentage_24h := some 0, volume_24h := some 0,
    timestamp := tsT }

/-- C5 counterexample: no function of (metadata, entity_symbol,
fact_type) alone reproduces content, because content embeds the entity
name, which is in none of the three: the price facts of recA and recB
agree on all three inputs yet have different content. -/
theorem C5_counterexample :
    ¬ ∃ g : Metadata → String → String → String,
      ∀ (c : CryptoData) (fs : List CryptoFact) (f : CryptoFact),
        extract_facts [c] = Except.ok fs → f ∈ fs →
        f.content = g f.metadata f.crypto_symbol f.fact_type := by
  rintro ⟨g, hg⟩
  have hA := hg recA [priceFact recA 100] (priceFact recA 100)
    (by with_unfolding_all rfl) (by simp)
  have hB := hg recB [priceFact recB 100] (priceFact recB 100)
    (by with_unfolding_all rfl) (by simp)
  have hAB : (priceFact recA 100).content = (priceFact recB 100).content :=
    hA.trans hB.symm
  exact absurd hAB (by with_unfolding_all decide)

/-- C5 amended: with the entity name added to the inputs, the single
derivation function render_content reproduces every emitted fact's
content byte for byte from (entity_name, entity_symbol, fact_type,
metadata). -/
theorem C5_content_roundtrip (c : CryptoData) (fs : List CryptoFact)
    (f : CryptoFact) (hok : extract_facts [c] = Except.ok fs) (hf : f ∈ fs) :
    render_content c.name f.crypto_symbol f.fact_type f.metadata =
      some f.content := by
  rcases mem_extract_facts_singleton hok hf with
    ⟨p, _, rfl⟩ | ⟨pct, chg, _, _, _, rfl⟩ | ⟨m, _, _, rfl⟩ | ⟨v, _, _, rfl⟩
  · rfl
  · rfl
  · cases hr : c.market_cap_rank <;>
      simp [render_content, marketFact, lookupRat, rankRender, rankVal,
        rankStr, hr, List.lookup]
  · rfl

/-- Witness for the content round trip at the concrete record recMkt
and its market-cap fact. -/
theorem C5_content_roundtrip_witness :
    render_content recMkt.name (marketFact recMkt 5000000000).crypto_symbol
      (marketFact recMkt 5000000000).fact_type
      (marketFact recMkt 5000000000).metadata =
      some (marketFact recMkt 5000000000).content :=
  C5_content_roundtrip recMkt
    [priceFact recMkt 100, marketFact recMkt 5000000000]
    (marketFact recMkt 5000000000) (by with_unfolding_all rfl) (by simp)

theorem filter_by_relevance_sound (t : ℚ) :
    ∀ (cs : List Candidate) (out : List ScoredFact),
      filter_by_relevance t cs = Except.ok out →
      ∀ f ∈ out, ∃ d, f.distance = some d ∧ f.similarity = 1 - d ∧
        t ≤ f.similarity := by
  intro cs
  induction cs with
  | nil =>
    intro out h f hf
    simp [filter_by_relevance] at h
    subst h
    simp at hf
  | cons c rest ih =>
    intro out h f hf
    cases hd : c.distance with
    | none => simp [filter_by_relevance, hd, pyGet, Bind.bind, Except.bind] at h
    | some d =>
      cases ht : filter_by_relevance t rest with
      | error e =>
        simp [filter_by_relevance, hd, ht, pyGet, Bind.bind, Except.bind] at h
      | ok tail =>
        by_cases hge : 1 - d ≥ t
        · have hout : out =
              { content := c.content, metadata := c.metadata,
                distance := some d, id := c.id,
                similarity := 1 - d } :: tail := by
            simp [filter_by_relevance, hd, ht, hge, pyGet, Bind.bind,
              Except.bind] at h
            exact h.symm
          subst hout
          rcases List.mem_cons.mp hf with rfl | hf
          · exact ⟨d, rfl, rfl, hge⟩
          · exact ih tail ht f hf
        · have hout : out = tail := by
            simp [filter_by_relevance, hd, ht, hge, pyGet, Bind.bind,
              Except.bind] at h
            exact h.symm
          exact ih tail ht f (hout ▸ hf)

/-- C1: whenever retrieve_facts returns a RetrievalResult, its facts
list has length at most max_facts and every returned fact carries
similarity = 1 - distance with similarity at or above the threshold. -/
theorem C1_retrieve_postcondition (q : String) (k : ℕ) (t : ℚ)
    (cands : List Candidate) (r : RetrievalResult)
    (hok : retrieve_facts q k t cands = Except.ok r) :
    r.facts.length ≤ k ∧
      ∀ f ∈ r.facts, ∃ d, f.distance = some d ∧ f.similarity = 1 - d ∧
        t ≤ f.similarity := by
  cases h : filter_by_relevance t cands with
  | error e => simp [retrieve_facts, h, Bind.bind, Except.bind] at hok
  | ok filtered =>
    simp [retrieve_facts, h, Bind.bind, Except.bind] at hok
    obtain rfl := hok.symm
    constructor
    · simp
    · intro f hf
      exact filter_by_relevance_sound t cands filtered h f
        (List.take_subset _ _ hf)

/-- A concrete candidate with a numeric distance. -/
def cand0 : Candidate :=
  { content := "a", metadata := [], distance := some 0, id := "i" }

/-- The result of retrieving over the single candidate cand0. -/
def res0 : RetrievalResult :=
  { query := "q",
    facts := [{ content := "a", metadata := [], distance := some 0,
                id := "i", similarity := 1 }],
    total_found := 1 }

/-- Witness for C1 at a concrete retrieval. -/
theorem C1_retrieve_postcondition_witness :
    res0.facts.length ≤ 1 ∧
      ∀ f ∈ res0.facts, ∃ d, f.distance = some d ∧ f.similarity = 1 - d ∧
        (1/2 : ℚ) ≤ f.similarity :=
  C1_retrieve_postcondition "q" 1 (1/2) [cand0] res0
    (by with_unfolding_all rfl)

/-- C7 counterexample: a threshold of 2 (outside [0, 1]) is not
rejected anywhere; retrieval executes and silently returns an empty
facts list. -/
theorem C7_counterexample :
    (1 : ℚ) < 2 ∧
    retrieve_facts "q" 5 2 [cand0] =
      Except.ok { query := "q", facts := [], total_found := 1 } :=
  ⟨by norm_num, by with_unfolding_all rfl⟩

theorem filter_by_relevance_all_below (t : ℚ) (ht : 1 < t) :
    ∀ cs : List Candidate,
      (∀ c ∈ cs, ∃ d, c.distance = some d ∧ 0 ≤ d) →
      filter_by_relevance t cs = Except.ok [] := by
  intro cs
  induction cs with
  | nil => intro _; rfl
  | cons a rest ih =>
    intro hall
    obtain ⟨d, hd, hd0⟩ := hall a (List.mem_cons_self _ _)
    have htail := ih (fun c hc => hall c (List.mem_cons_of_mem _ hc))
    have hnot : ¬ (1 - d ≥ t) := by
      intro hge
      linarith
    simp [filter_by_relevance, hd, htail, hnot, pyGet, Bind.bind, Except.bind]

/-- C7 amended: neither retrieve_facts nor Config.validate checks the
threshold; with a threshold above 1 and nonnegative distances the call
runs and returns an ok result with an empty facts list (the silent
empty-results behavior), not an error. -/
theorem C7_no_threshold_validation (q : String) (k : ℕ) (t : ℚ)
    (cands : List Candidate) (ht : 1 < t)
    (hall : ∀ c ∈ cands, ∃ d, c.distance = some d ∧ 0 ≤ d) :
    retrieve_facts q k t cands =
      Except.ok { query := q, facts := [], total_found := cands.length } := by
  have h := filter_by_relevance_all_below t ht cands hall
  simp [retrieve_facts, h, Bind.bind, Except.bind]

/-- Witness for C7 at threshold 2 over one candidate. -/
theorem C7_no_threshold_validation_witness :
    retrieve_facts "q" 5 2 [cand0] =
      Except.ok { query := "q", facts := [], total_found := [cand0].length } :=
  C7_no_threshold_validation "q" 5 2 [cand0] (by norm_num)
    (by
      intro c hc
      rcases List.mem_singleton.mp hc with rfl
      exact ⟨0, rfl, le_refl 0⟩)

theorem filter_by_relevance_none_raises (t : ℚ) :
    ∀ (cs : List Candidate) (c : Candidate), c ∈ cs → c.distance = none →
      ∃ e, filter_by_relevance t cs = Except.error e := by
  intro cs
  induction cs with
  | nil => intro c hc; simp at hc
  | cons a rest ih =>
    intro c hc hd
    rcases List.mem_cons.mp hc with rfl | hc
    · exact ⟨"TypeError: NoneType",
        by simp [filter_by_relevance, hd, pyGet, Bind.bind, Except.bind]⟩
    · cases ha : a.distance with
      | none =>
        exact ⟨"TypeError: NoneType",
          by simp [filter_by_relevance, ha, pyGet, Bind.bind, Except.bind]⟩
      | some d =>
        obtain ⟨e, he⟩ := ih c hc hd
        exact ⟨e, by
          simp [filter_by_relevance, ha, he, pyGet, Bind.bind, Except.bind]⟩

/-- The backend response in which the backend reports no distances. -/
def resNoDist : QueryResults :=
  { documents := [["Bitcoin (BTC) is currently trading at $100.00 USD."]],
    metadatas := [[[]]], distances := none, ids := [["bitcoin_price"]] }

/-- C10 counterexample: when the backend reports no distances,
search_facts annotates candidates with a None distance and
retrieve_facts then raises a TypeError computing 1 - None instead of
returning a RetrievalResult. -/
theorem C10_counterexample :
    (search_facts resNoDist).map Candidate.distance = [none] ∧
    retrieve_facts "bitcoin price" 5 (4/5) (search_facts resNoDist) =
      Except.error "TypeError: NoneType" :=
  ⟨by with_unfolding_all rfl, by with_unfolding_all rfl⟩

/-- C10 amended: retrieve_facts raises whenever any candidate carries a
None distance (the dict.get default of 1.0 applies only to an absent
key, and search_facts always writes the distance key); it returns a
RetrievalResult only when every distance is numeric. -/
theorem C10_none_distance_raises (q : String) (k : ℕ) (t : ℚ)
    (cands : List Candidate) (c : Candidate) (hc : c ∈ cands)
    (hd : c.distance = none) :
    ∃ e, retrieve_facts q k t cands = Except.error e := by
  obtain ⟨e, he⟩ := filter_by_relevance_none_raises t cands c hc hd
  exact ⟨e, by simp [retrieve_facts, he, Bind.bind, Except.bind]⟩

/-- A concrete candidate with a None distance annotation. -/
def candNone : Candidate :=
  { content := "d", metadata := [], distance := none, id := "x" }

/-- Witness for C10 at a concrete candidate list. -/
theorem C10_none_distance_raises_witness :
    ∃ e, retrieve_facts "q" 5 (4/5) [candNone] = Except.error e :=
  C10_none_distance_raises "q" 5 (4/5) [candNone] candNone
    (List.mem_singleton.mpr rfl) rfl

/-- A fixed embedding function for concrete evaluations (the embedding
model is an external collaborator). -/
def embed0 : String → List ℚ := fun _ => [0]

/-- A stored entry whose id collides with the re-ingested fact below. -/
def oldEntry : Entry :=
  { id := "bitcoin_price_" ++ tsT, document := "old content",
    metadata := [], embedding := [0] }

/-- A fact re-ingested under the same fact_id with new content. -/
def newFact : CryptoFact :=
  { fact_id := "bitcoin_price_" ++ tsT, content := "new content",
    crypto_id := "bitcoin", crypto_symbol := "BTC", fact_type := "price",
    timestamp := tsT, metadata := [] }

/-- C3 failing-input evaluation: add_facts on a fact whose fact_id is
already stored leaves the old entry in place, with its old content, and
still reports a count of 1; nothing is replaced, because the source
calls collection.add rather than collection.upsert. -/
theorem C3_add_does_not_replace :
    add_facts embed0 [oldEntry] [newFact] = ([oldEntry], 1) ∧
    newFact.fact_id = oldEntry.id ∧
    oldEntry.document = "old content" ∧ newFact.content = "new content" :=
  ⟨by with_unfolding_all rfl, rfl, rfl, rfl⟩

/-- A stored entry with symbol BTC. -/
def entryA : Entry :=
  { id := "a", document := "",
    metadata := [("crypto_symbol", MetaVal.str "BTC"),
                 ("fact_type", MetaVal.str "price")],
    embedding := [] }

/-- A stored entry with symbol ETH. -/
def entryB : Entry :=
  { id := "b", document := "",
    metadata := [("crypto_symbol", MetaVal.str "ETH"),
                 ("fact_type", MetaVal.str "price")],
    embedding := [] }

/-- A collection of 101 entries whose distinct symbols are not all
visible in the first 100. -/
def col101 : Collection := List.replicate 100 entryA ++ [entryB]

set_option maxRecDepth 100000 in
/-- C8 counterexample: on a collection of 101 entries the reported
distinct-entity count is 1 although the collection holds 2 distinct
symbols (the count is taken over a 100-entry sample), and the empty
collection gets none of the distinct-count fields. -/
theorem C8_counterexample :
    (get_collection_stats col101).unique_cryptos = some 1 ∧
    ((col101.map symOf).dedup.length = 2) ∧
    get_collection_stats ([] : Collection) =
      { total_facts := 0, unique_cryptos := none,
        crypto_symbols := none, fact_types := none } := by
  refine ⟨by with_unfolding_all rfl, by with_unfolding_all rfl, rfl⟩

theorem take_min_100 (col : Collection) :
    col.take (min 100 col.length) = col.take 100 := by
  rcases le_total col.length 100 with h | h
  · rw [min_eq_right h, List.take_length, List.take_of_length_le h]
  · rw [min_eq_left h]

/-- C8 amended: stats reports the exact total count, but the distinct
symbols and the distinct fact-type values come from the first
min(100, count) stored entries only (hence they cover the whole
collection exactly when it has at most 100 entries), and the empty
collection is reported with the total alone. -/
theorem C8_stats (col : Collection) :
    (get_collection_stats col).total_facts = col.length ∧
    (col ≠ [] →
      (get_collection_stats col).unique_cryptos =
        some ((col.take 100).map symOf).dedup.length ∧
      (get_collection_stats col).crypto_symbols =
        some ((col.take 100).map symOf).dedup ∧
      (get_collection_stats col).fact_types =
        some ((col.take 100).map ftypeOf).dedup) ∧
    (col = [] →
      get_collection_stats col =
        { total_facts := 0, unique_cryptos := none,
          crypto_symbols := none, fact_types := none }) ∧
    (col.length ≤ 100 → col.take 100 = col) := by
  refine ⟨?_, ?_, ?_, fun h => List.take_of_length_le h⟩
  · cases col with
    | nil => rfl
    | cons a l => simp [get_collection_stats]
  · intro hne
    cases col with
    | nil => exact absurd rfl hne
    | cons a l =>
      have hpos : (a :: l : Collection).length > 0 := Nat.succ_pos _
      simp only [get_collection_stats, if_pos hpos, take_min_100]
      simp
  · intro h
    subst h
    rfl

/-- Witness for C8_stats on a one-entry collection, where the sampled
distinct counts cover the whole collection. -/
theorem C8_stats_witness :
    (get_collection_stats [entryA]).unique_cryptos =
      some ((([entryA] : Collection).take 100).map symOf).dedup.length ∧
    ([entryA] : Collection).take 100 = [entryA] :=
  ⟨((C8_stats [entryA]).2.1 (by simp)).1,
   (C8_stats [entryA]).2.2.2 (by simp)⟩

/-- C9: the intent analysis of the comparison query yields exactly the
entity set BTC, ETH, an intent list containing market_cap, a true
comparison flag and a false general flag. -/
theorem C9_intent_example :
    (analyze_query_intent "Compare Bitcoin and Ethereum market caps").cryptos.toFinset
      = ({"BTC", "ETH"} : Finset String) ∧
    "market_cap" ∈
      (analyze_query_intent "Compare Bitcoin and Ethereum market caps").intents ∧
    (analyze_query_intent "Compare Bitcoin and Ethereum market caps").is_comparison
      = true ∧
    (analyze_query_intent "Compare Bitcoin and Ethereum market caps").is_general
      = false := by
  have hc : (analyze_query_intent
      "Compare Bitcoin and Ethereum market caps").cryptos = ["BTC", "ETH"] := by
    with_unfolding_all rfl
  have hi : (analyze_query_intent
      "Compare Bitcoin and Ethereum market caps").intents = ["market_cap"] := by
    with_unfolding_all rfl
  refine ⟨by rw [hc]; decide, by rw [hi]; simp, ?_, ?_⟩
  · with_unfolding_all rfl
  · with_unfolding_all rfl
